import Mathlib

/-!
Shallow embedding of the `ZamaFHEPackage` Solidity contract
(src/frontend/web/src/App.tsx, embedded contract source, lines 661-824).

The contract stores encrypted package records (three `euint32` ciphertext
handles each), lets anyone request their decryption through the FHE oracle,
receives oracle callbacks carrying cleartexts plus a proof, commits the
revealed plaintext, and maintains an encrypted per-version counter that can
itself be revealed through the same request/callback path.

Modelling conventions:
* `uint256` quantities are `Nat`; the `packageCount += 1` overflow check of
  Solidity 0.8 is the explicit `+ 1 < 2 ^ 256` guard.
* An `euint32` aggregate-counter ciphertext is modelled semantically as
  `Option Nat`: `none` is the uninitialized mapping default handle
  (`FHE.isInitialized` = false), `some k` an initialized handle encrypting
  `k`, with `FHE.add` wrapping modulo `2 ^ 32`.
* The package ciphertext handles are opaque `Nat`s (their plaintext never
  flows through the contract).
* A `require` failure / revert is `Except.error`; a reverted call leaves the
  caller-visible state unchanged, which the `step` function makes explicit.
* `FHE.requestDecryption` and `FHE.checkSignatures` are external primitives
  (not part of this repository's source); they are modelled from the spec,
  see `nextRequestId` and the `proofValid` argument of the callbacks.
-/

/-- Mirrors `EncryptedPackageData`: id, three ciphertext handles, timestamp. -/
structure EncryptedPackageData where
  id : Nat
  encryptedName : Nat
  encryptedVersion : Nat
  encryptedDescription : Nat
  timestamp : Nat
  deriving Repr, DecidableEq

/-- Mirrors `DecryptedPackageData`: the revealed plaintext strings and flag. -/
structure DecryptedPackageData where
  name : String
  version : String
  description : String
  isRevealed : Bool
  deriving Repr, DecidableEq

/-- The Solidity mapping default for `DecryptedPackageData`: all-empty, unrevealed. -/
def emptyDecrypted : DecryptedPackageData := ⟨"", "", "", false⟩

/-- Revert reasons / failure modes of the contract's public functions.
`alreadyDecrypted` is the string `"Already decrypted"` (the spec's
`AlreadyRevealed` in `requestPackageDecryption` and `AlreadySettled` in
`decryptPackage`); `invalidRequest` is `"Invalid request"` (`UnknownRequest`);
`versionNotFound` is `"Version not found"` (`UnknownAttribute`);
`invalidProof` is a `FHE.checkSignatures` revert; `malformedPayload` an
`abi.decode` revert; `idOverflow` the unreachable uint256 overflow revert. -/
inductive CallErr where
  | invalidRequest
  | alreadyDecrypted
  | invalidProof
  | malformedPayload
  | versionNotFound
  | idOverflow
  deriving Repr, DecidableEq

/-- The `bytes cleartexts` payload of an oracle callback, as seen through
`abi.decode`: either a record payload that decodes as `(string[])` with the
three accessed entries, or a counter payload that decodes as `(uint32)`.
Decoding one shape as the other reverts (`malformedPayload`). -/
inductive Cleartexts where
  | strings3 (a b c : String)
  | u32 (n : Nat)
  deriving Repr, DecidableEq

/-- `FHE.isInitialized` on a counter ciphertext: the mapping default handle
(`none`) is uninitialized. -/
def fheIsInitialized (c : Option Nat) : Bool := c.isSome

/-- `FHE.asEuint32`: a fresh trivial ciphertext of a 32-bit constant. -/
def fheAsEuint32 (n : Nat) : Option Nat := some (n % 2 ^ 32)

/-- `FHE.add` on `euint32`: homomorphic addition wrapping modulo `2 ^ 32`. -/
def fheAdd : Option Nat → Option Nat → Option Nat
  | some a, some b => some ((a + b) % 2 ^ 32)
  | _, _ => none

/-- Modelled from the spec: `bytes32ToUint(keccak256(abi.encodePacked(version)))`.
`keccak256` is an external EVM primitive, not part of this repository's
source; the spec only requires "a derived key computed deterministically from
`attributeValue` (e.g., a hash)" into the uint256 space. It is modelled as a
fixed deterministic stand-in function into `[0, 2 ^ 256)`; no theorem below
depends on anything about it beyond determinism and its range. -/
def specHash (v : String) : Nat :=
  v.data.foldl (fun h c => (h * 131 + c.toNat + 1) % 2 ^ 256) 5381

/-- The contract storage.
`nextRequestId` is modelled from the spec: `FHE.requestDecryption` is an
external oracle primitive returning "the oracle-assigned `requestId`
synchronously", with "`requestId` unique for the lifetime of the system"; it
is modelled as a fresh-id counter starting at 1 (0 is the mapping-default
sentinel the contract treats as "no request"). -/
structure ContractState where
  packageCount : Nat
  encryptedPackages : Nat → EncryptedPackageData
  decryptedPackages : Nat → DecryptedPackageData
  encryptedVersionCount : String → Option Nat
  versionList : List String
  requestToPackageId : Nat → Nat
  nextRequestId : Nat

/-- The deployment state: every mapping at its Solidity default. -/
def initState : ContractState where
  packageCount := 0
  encryptedPackages := fun _ => ⟨0, 0, 0, 0, 0⟩
  decryptedPackages := fun _ => emptyDecrypted
  encryptedVersionCount := fun _ => none
  versionList := []
  requestToPackageId := fun _ => 0
  nextRequestId := 1

/-- `submitEncryptedPackage(encryptedName, encryptedVersion, encryptedDescription)`:
`packageCount += 1` (reverting on uint256 overflow, per Solidity 0.8), store
the `EncryptedPackageData` at the new id with `block.timestamp = now`,
initialize the matching empty `DecryptedPackageData`, emit `PackageSubmitted`.
Returns the allocated id alongside the new state. -/
def submitEncryptedPackage (s : ContractState) (en ev ed now : Nat) :
    Except CallErr (ContractState × Nat) :=
  if s.packageCount + 1 < 2 ^ 256 then
    let newId := s.packageCount + 1
    Except.ok ({ s with
      packageCount := newId
      encryptedPackages := fun j =>
        if j = newId then ⟨newId, en, ev, ed, now⟩ else s.encryptedPackages j
      decryptedPackages := fun j =>
        if j = newId then emptyDecrypted else s.decryptedPackages j }, newId)
  else Except.error CallErr.idOverflow

/-- `requestPackageDecryption(packageId)`: reads the stored package (a plain
mapping read — there is no existence check), requires
`!decryptedPackages[packageId].isRevealed` (`"Already decrypted"`), forwards
the three handles to `FHE.requestDecryption`, and records
`requestToPackageId[reqId] = packageId`. Returns the fresh request id. -/
def requestPackageDecryption (s : ContractState) (packageId : Nat) :
    Except CallErr (ContractState × Nat) :=
  if (s.decryptedPackages packageId).isRevealed then
    Except.error CallErr.alreadyDecrypted
  else
    let reqId := s.nextRequestId
    Except.ok ({ s with
      nextRequestId := reqId + 1
      requestToPackageId := fun j =>
        if j = reqId then packageId else s.requestToPackageId j }, reqId)

/-- The aggregate-counter update at the end of `decryptPackage`: if
`encryptedVersionCount[v]` is uninitialized, set it to `FHE.asEuint32(0)` and
push `v` onto `versionList`; then unconditionally
`encryptedVersionCount[v] = FHE.add(encryptedVersionCount[v], FHE.asEuint32(1))`.
Returns the updated mapping and version list. -/
def bumpVersionCount (m : String → Option Nat) (vl : List String) (v : String) :
    (String → Option Nat) × List String :=
  if fheIsInitialized (m v) then
    (fun w => if w = v then fheAdd (m v) (fheAsEuint32 1) else m w, vl)
  else
    let m1 : String → Option Nat := fun w => if w = v then fheAsEuint32 0 else m w
    (fun w => if w = v then fheAdd (m1 v) (fheAsEuint32 1) else m1 w, vl ++ [v])

/-- `decryptPackage(requestId, cleartexts, proof)` — the record-reveal oracle
callback. In source order: look up `requestToPackageId[requestId]` and require
it nonzero (`"Invalid request"`); require the subject record unrevealed
(`"Already decrypted"`); `FHE.checkSignatures` (modelled from the spec as the
abstract verdict `proofValid` of the external attestation check on this
request/cleartexts/proof triple — it reverts on an invalid proof, strictly
before any state write); `abi.decode(cleartexts, (string[]))`; then commit the
three strings, set `isRevealed = true`, and run the aggregate-counter update
for the revealed version. The request mapping entry is NOT deleted. -/
def decryptPackage (s : ContractState) (requestId : Nat) (cleartexts : Cleartexts)
    (proofValid : Bool) : Except CallErr ContractState :=
  let packageId := s.requestToPackageId requestId
  if packageId = 0 then Except.error CallErr.invalidRequest
  else if (s.decryptedPackages packageId).isRevealed then
    Except.error CallErr.alreadyDecrypted
  else if proofValid = false then Except.error CallErr.invalidProof
  else
    match cleartexts with
    | Cleartexts.u32 _ => Except.error CallErr.malformedPayload
    | Cleartexts.strings3 nm vr ds =>
      let bumped := bumpVersionCount s.encryptedVersionCount s.versionList vr
      Except.ok { s with
        decryptedPackages := fun j =>
          if j = packageId then ⟨nm, vr, ds, true⟩ else s.decryptedPackages j
        encryptedVersionCount := bumped.1
        versionList := bumped.2 }

/-- `getDecryptedPackage(packageId)`: pure mapping read returning
`(name, version, description, isRevealed)`. -/
def getDecryptedPackage (s : ContractState) (packageId : Nat) :
    String × String × String × Bool :=
  let pkg := s.decryptedPackages packageId
  (pkg.name, pkg.version, pkg.description, pkg.isRevealed)

/-- `getEncryptedVersionCount(version)`: pure mapping read of the counter
handle; no require, so it returns the uninitialized default handle for a
version never observed in any reveal. -/
def getEncryptedVersionCount (s : ContractState) (version : String) : Option Nat :=
  s.encryptedVersionCount version

/-- `requestVersionCountDecryption(version)`: requires the counter initialized
(`"Version not found"`), forwards its handle to `FHE.requestDecryption`, and
records `requestToPackageId[reqId] = bytes32ToUint(keccak256(abi.encodePacked(version)))`
— the hash-derived key shares the same uint256 mapping as record ids. -/
def requestVersionCountDecryption (s : ContractState) (version : String) :
    Except CallErr (ContractState × Nat) :=
  if fheIsInitialized (s.encryptedVersionCount version) then
    let reqId := s.nextRequestId
    Except.ok ({ s with
      nextRequestId := reqId + 1
      requestToPackageId := fun j =>
        if j = reqId then specHash version else s.requestToPackageId j }, reqId)
  else Except.error CallErr.versionNotFound

/-- `getVersionFromHash`: linear scan of `versionList` recomputing each
entry's hash; reverts `"Version not found"` on no match (here: `none`). -/
def findVersionByHash (vl : List String) (h : Nat) : Option String :=
  match vl with
  | [] => none
  | v :: rest => if specHash v = h then some v else findVersionByHash rest h

/-- `decryptVersionCount(requestId, cleartexts, proof)` — the counter-reveal
oracle callback. In source order: read `requestToPackageId[requestId]` (no
nonzero check), resolve it through `getVersionFromHash` (reverting
`"Version not found"` on no match), `FHE.checkSignatures`, then
`abi.decode(cleartexts, (uint32))` into a local variable. The decoded count is
returned here to expose it, but the source assigns it to a local and performs
no storage write and no event emission: the state component of the result is
the input state, and the request mapping entry is not deleted. -/
def decryptVersionCount (s : ContractState) (requestId : Nat)
    (cleartexts : Cleartexts) (proofValid : Bool) :
    Except CallErr (ContractState × Nat) :=
  let versionHash := s.requestToPackageId requestId
  match findVersionByHash s.versionList versionHash with
  | none => Except.error CallErr.versionNotFound
  | some _ =>
    if proofValid = false then Except.error CallErr.invalidProof
    else
      match cleartexts with
      | Cleartexts.strings3 _ _ _ => Except.error CallErr.malformedPayload
      | Cleartexts.u32 n => Except.ok (s, n)

/-- One external transaction against the contract. -/
inductive Op where
  | submit (en ev ed now : Nat)
  | requestPkg (packageId : Nat)
  | requestVer (version : String)
  | decryptPkg (requestId : Nat) (cleartexts : Cleartexts) (proofValid : Bool)
  | decryptVer (requestId : Nat) (cleartexts : Cleartexts) (proofValid : Bool)

/-- Transaction semantics: a reverting call (an `Except.error`) leaves the
contract storage exactly as it was. -/
def step (s : ContractState) : Op → ContractState
  | Op.submit en ev ed now =>
    match submitEncryptedPackage s en ev ed now with
    | Except.ok (s', _) => s'
    | Except.error _ => s
  | Op.requestPkg pid =>
    match requestPackageDecryption s pid with
    | Except.ok (s', _) => s'
    | Except.error _ => s
  | Op.requestVer v =>
    match requestVersionCountDecryption s v with
    | Except.ok (s', _) => s'
    | Except.error _ => s
  | Op.decryptPkg r c pv =>
    match decryptPackage s r c pv with
    | Except.ok s' => s'
    | Except.error _ => s
  | Op.decryptVer r c pv =>
    match decryptVersionCount s r c pv with
    | Except.ok (s', _) => s'
    | Except.error _ => s

/-- Run a transaction sequence from a given state. -/
def execFrom (s : ContractState) (tr : List Op) : ContractState := tr.foldl step s

/-- Run a transaction sequence from the deployment state. -/
def execTrace (tr : List Op) : ContractState := execFrom initState tr

/-- Does `op`, fired in state `s`, successfully commit a record reveal whose
decrypted version string is `v`? -/
def revealsVersion (v : String) (s : ContractState) : Op → Bool
  | Op.decryptPkg r (Cleartexts.strings3 a w d) pv =>
    (v == w) && (match decryptPackage s r (Cleartexts.strings3 a w d) pv with
                 | Except.ok _ => true
                 | Except.error _ => false)
  | _ => false

/-- Number of successful record reveals with decrypted version `v` along a
transaction sequence fired from `s`. -/
def countRevealsFrom (v : String) : ContractState → List Op → Nat
  | _, [] => 0
  | s, op :: rest =>
    (if revealsVersion v s op then 1 else 0) + countRevealsFrom v (step s op) rest

/-- Number of successful record reveals with decrypted version `v` along a
transaction sequence fired from deployment. -/
def countReveals (v : String) (tr : List Op) : Nat := countRevealsFrom v initState tr

/-- Does `op`, fired in state `s`, successfully commit the record with id `id`? -/
def commitsPackage (id : Nat) (s : ContractState) : Op → Bool
  | Op.decryptPkg r c pv =>
    (s.requestToPackageId r == id) &&
      (match decryptPackage s r c pv with
       | Except.ok _ => true
       | Except.error _ => false)
  | _ => false

/-- Number of successful commits of record `id` along a transaction sequence
fired from `s`. -/
def countCommitsFrom (id : Nat) : ContractState → List Op → Nat
  | _, [] => 0
  | s, op :: rest =>
    (if commitsPackage id s op then 1 else 0) + countCommitsFrom id (step s op) rest

/-- Number of successful commits of record `id` from deployment. -/
def countCommits (id : Nat) (tr : List Op) : Nat := countCommitsFrom id initState tr

/-- Is a call result a success? -/
def exceptOk {ε α : Type} : Except ε α → Bool
  | Except.ok _ => true
  | Except.error _ => false

/-! ### Demo states used by concrete witnesses and counterexamples -/

/-- A record payload used in concrete traces. -/
def canonPayload : Cleartexts := Cleartexts.strings3 "pkg" "1.0" "demo"

/-- An end-to-end demo trace: submit one package, request its decryption
(request id 1), commit it through the oracle callback with version `"1.0"`,
then request the reveal of the `"1.0"` counter (request id 2). -/
def demoTrace : List Op :=
  [Op.submit 10 20 30 0, Op.requestPkg 1,
   Op.decryptPkg 1 canonPayload true,
   Op.requestVer "1.0"]

/-- The state after `demoTrace`. -/
def demoState : ContractState := execTrace demoTrace

/-- The state after submitting one package and requesting its decryption. -/
def demoPre : ContractState := execTrace [Op.submit 10 20 30 0, Op.requestPkg 1]

/-- `demoPre` after the record-reveal callback for request id 1 succeeds. -/
def demoMid : ContractState :=
  execTrace [Op.submit 10 20 30 0, Op.requestPkg 1, Op.decryptPkg 1 canonPayload true]

/-- A resurrection trace: `requestPackageDecryption(7)` succeeds on the fresh
contract (no existence check) and maps request id 1 to the never-submitted
record 7; the valid callback for request id 1 then reveals record 7; seven
`submitEncryptedPackage` transactions later, the seventh submit allocates id 7
and re-initializes its decrypted slot, resetting `isRevealed` to `false` —
while request entry `1 ↦ 7` still exists, since `decryptPackage` never
deletes it. -/
def resurrectTrace : List Op :=
  [Op.requestPkg 7, Op.decryptPkg 1 canonPayload true,
   Op.submit 1 2 3 0, Op.submit 1 2 3 0, Op.submit 1 2 3 0, Op.submit 1 2 3 0,
   Op.submit 1 2 3 0, Op.submit 1 2 3 0, Op.submit 1 2 3 0]

/-! ### Characterization lemmas for the individual calls -/

theorem bumpVersionCount_fst_at (m : String → Option Nat) (vl : List String)
    (v u : String) :
    (bumpVersionCount m vl v).1 u =
      if u = v then some (((m v).getD 0 + 1) % 2 ^ 32) else m u := by
  unfold bumpVersionCount
  cases hm : m v with
  | none =>
    simp only [fheIsInitialized, hm, Option.isSome_none, Bool.false_eq_true, if_false]
    by_cases hu : u = v <;>
      simp [hu, fheAdd, fheAsEuint32, Nat.mod_self, Nat.zero_mod]
  | some k =>
    simp only [fheIsInitialized, hm, Option.isSome_some, if_true]
    by_cases hu : u = v <;> simp [hu, fheAdd, fheAsEuint32, hm]

theorem bumpVersionCount_snd (m : String → Option Nat) (vl : List String) (v : String) :
    (bumpVersionCount m vl v).2 =
      if fheIsInitialized (m v) then vl else vl ++ [v] := by
  unfold bumpVersionCount
  by_cases h : fheIsInitialized (m v) <;> simp [h]

theorem decryptPackage_unknown (s : ContractState) (r : Nat) (c : Cleartexts)
    (pv : Bool) (h : s.requestToPackageId r = 0) :
    decryptPackage s r c pv = Except.error CallErr.invalidRequest := by
  unfold decryptPackage
  simp [h]

theorem decryptPackage_settled (s : ContractState) (r : Nat) (c : Cleartexts)
    (pv : Bool) (h0 : s.requestToPackageId r ≠ 0)
    (h1 : (s.decryptedPackages (s.requestToPackageId r)).isRevealed = true) :
    decryptPackage s r c pv = Except.error CallErr.alreadyDecrypted := by
  unfold decryptPackage
  simp [h0, h1]

theorem decryptPackage_badProof (s : ContractState) (r : Nat) (c : Cleartexts)
    (h0 : s.requestToPackageId r ≠ 0)
    (h1 : (s.decryptedPackages (s.requestToPackageId r)).isRevealed = false) :
    decryptPackage s r c false = Except.error CallErr.invalidProof := by
  unfold decryptPackage
  simp [h0, h1]

/-- With an invalid proof, `decryptPackage` reverts no matter what. -/
theorem decryptPackage_badProof_error (s : ContractState) (r : Nat) (c : Cleartexts) :
    ∀ s', decryptPackage s r c false ≠ Except.ok s' := by
  intro s'
  unfold decryptPackage
  by_cases h0 : s.requestToPackageId r = 0 <;>
    by_cases h1 : (s.decryptedPackages (s.requestToPackageId r)).isRevealed <;>
      simp [h0, h1]

/-- Forward computation: a successful `decryptPackage` and its exact result. -/
theorem decryptPackage_ok_of (s : ContractState) (r : Nat) (a w d : String)
    (h0 : s.requestToPackageId r ≠ 0)
    (h1 : (s.decryptedPackages (s.requestToPackageId r)).isRevealed = false) :
    decryptPackage s r (Cleartexts.strings3 a w d) true =
      Except.ok { s with
        decryptedPackages := fun j =>
          if j = s.requestToPackageId r then ⟨a, w, d, true⟩ else s.decryptedPackages j
        encryptedVersionCount := (bumpVersionCount s.encryptedVersionCount s.versionList w).1
        versionList := (bumpVersionCount s.encryptedVersionCount s.versionList w).2 } := by
  unfold decryptPackage
  simp [h0, h1]

/-- Inversion: everything a successful `decryptPackage` implies. -/
theorem decryptPackage_ok_elim (s : ContractState) (r : Nat) (c : Cleartexts)
    (pv : Bool) (s' : ContractState)
    (h : decryptPackage s r c pv = Except.ok s') :
    s.requestToPackageId r ≠ 0 ∧
    (s.decryptedPackages (s.requestToPackageId r)).isRevealed = false ∧
    pv = true ∧
    ∃ a w d, c = Cleartexts.strings3 a w d ∧
      s' = { s with
        decryptedPackages := fun j =>
          if j = s.requestToPackageId r then ⟨a, w, d, true⟩ else s.decryptedPackages j
        encryptedVersionCount := (bumpVersionCount s.encryptedVersionCount s.versionList w).1
        versionList := (bumpVersionCount s.encryptedVersionCount s.versionList w).2 } := by
  by_cases h0 : s.requestToPackageId r = 0
  · rw [decryptPackage_unknown s r c pv h0] at h
    exact absurd h (by simp)
  by_cases h1 : (s.decryptedPackages (s.requestToPackageId r)).isRevealed
  · rw [decryptPackage_settled s r c pv h0 h1] at h
    exact absurd h (by simp)
  have h1' : (s.decryptedPackages (s.requestToPackageId r)).isRevealed = false := by
    simpa using h1
  cases hpv : pv with
  | false =>
    subst hpv
    rw [decryptPackage_badProof s r c h0 h1'] at h
    exact absurd h (by simp)
  | true =>
    subst hpv
    cases c with
    | u32 n =>
      unfold decryptPackage at h
      simp [h0, h1'] at h
    | strings3 a w d =>
      rw [decryptPackage_ok_of s r a w d h0 h1'] at h
      injection h with h
      exact ⟨h0, h1', rfl, a, w, d, rfl, h.symm⟩

/-- Forward computation of a successful `submitEncryptedPackage`. -/
theorem submitEncryptedPackage_ok (s : ContractState) (en ev ed now : Nat)
    (h : s.packageCount + 1 < 2 ^ 256) :
    submitEncryptedPackage s en ev ed now =
      Except.ok ({ s with
        packageCount := s.packageCount + 1
        encryptedPackages := fun j =>
          if j = s.packageCount + 1 then ⟨s.packageCount + 1, en, ev, ed, now⟩
          else s.encryptedPackages j
        decryptedPackages := fun j =>
          if j = s.packageCount + 1 then emptyDecrypted else s.decryptedPackages j },
        s.packageCount + 1) := by
  unfold submitEncryptedPackage
  rw [if_pos h]

/-- Inversion of a successful `submitEncryptedPackage`. -/
theorem submitEncryptedPackage_ok_elim (s : ContractState) (en ev ed now : Nat)
    (s' : ContractState) (id : Nat)
    (h : submitEncryptedPackage s en ev ed now = Except.ok (s', id)) :
    s.packageCount + 1 < 2 ^ 256 ∧ id = s.packageCount + 1 ∧
    s' = { s with
      packageCount := s.packageCount + 1
      encryptedPackages := fun j =>
        if j = s.packageCount + 1 then ⟨s.packageCount + 1, en, ev, ed, now⟩
        else s.encryptedPackages j
      decryptedPackages := fun j =>
        if j = s.packageCount + 1 then emptyDecrypted else s.decryptedPackages j } := by
  by_cases hb : s.packageCount + 1 < 2 ^ 256
  · rw [submitEncryptedPackage_ok s en ev ed now hb] at h
    injection h with h
    injection h with h1 h2
    exact ⟨hb, h2.symm, h1.symm⟩
  · unfold submitEncryptedPackage at h
    rw [if_neg hb] at h
    exact absurd h (by simp)

/-- Forward computation of a successful `requestPackageDecryption`. -/
theorem requestPackageDecryption_ok (s : ContractState) (packageId : Nat)
    (h : (s.decryptedPackages packageId).isRevealed = false) :
    requestPackageDecryption s packageId =
      Except.ok ({ s with
        nextRequestId := s.nextRequestId + 1
        requestToPackageId := fun j =>
          if j = s.nextRequestId then packageId else s.requestToPackageId j },
        s.nextRequestId) := by
  unfold requestPackageDecryption
  rw [if_neg (by simp [h])]

/-- `requestPackageDecryption` on an already-revealed subject reverts. -/
theorem requestPackageDecryption_revealed (s : ContractState) (packageId : Nat)
    (h : (s.decryptedPackages packageId).isRevealed = true) :
    requestPackageDecryption s packageId = Except.error CallErr.alreadyDecrypted := by
  unfold requestPackageDecryption
  rw [if_pos h]

/-- Inversion of a successful `requestPackageDecryption`. -/
theorem requestPackageDecryption_ok_elim (s : ContractState) (packageId : Nat)
    (s' : ContractState) (r : Nat)
    (h : requestPackageDecryption s packageId = Except.ok (s', r)) :
    (s.decryptedPackages packageId).isRevealed = false ∧ r = s.nextRequestId ∧
    s' = { s with
      nextRequestId := s.nextRequestId + 1
      requestToPackageId := fun j =>
        if j = s.nextRequestId then packageId else s.requestToPackageId j } := by
  by_cases hr : (s.decryptedPackages packageId).isRevealed
  · rw [requestPackageDecryption_revealed s packageId hr] at h
    exact absurd h (by simp)
  · have hr' : (s.decryptedPackages packageId).isRevealed = false := by simpa using hr
    rw [requestPackageDecryption_ok s packageId hr'] at h
    injection h with h
    injection h with h1 h2
    exact ⟨hr', h2.symm, h1.symm⟩

/-- Forward computation of a successful `requestVersionCountDecryption`. -/
theorem requestVersionCountDecryption_ok (s : ContractState) (version : String)
    (h : fheIsInitialized (s.encryptedVersionCount version) = true) :
    requestVersionCountDecryption s version =
      Except.ok ({ s with
        nextRequestId := s.nextRequestId + 1
        requestToPackageId := fun j =>
          if j = s.nextRequestId then specHash version else s.requestToPackageId j },
        s.nextRequestId) := by
  unfold requestVersionCountDecryption
  rw [if_pos h]

/-- Inversion of a successful `requestVersionCountDecryption`. -/
theorem requestVersionCountDecryption_ok_elim (s : ContractState) (version : String)
    (s' : ContractState) (r : Nat)
    (h : requestVersionCountDecryption s version = Except.ok (s', r)) :
    fheIsInitialized (s.encryptedVersionCount version) = true ∧
    r = s.nextRequestId ∧
    s' = { s with
      nextRequestId := s.nextRequestId + 1
      requestToPackageId := fun j =>
        if j = s.nextRequestId then specHash version else s.requestToPackageId j } := by
  by_cases hi : fheIsInitialized (s.encryptedVersionCount version) = true
  · rw [requestVersionCountDecryption_ok s version hi] at h
    injection h with h
    injection h with h1 h2
    exact ⟨hi, h2.symm, h1.symm⟩
  · unfold requestVersionCountDecryption at h
    rw [if_neg hi] at h
    exact absurd h (by simp)

/-- Inversion of a successful `decryptVersionCount`: the callback succeeds only
on a `uint32` payload with a valid proof for a hash-resolvable request key, and
it returns the input state unchanged — the decoded count is discarded. -/
theorem decryptVersionCount_ok_elim (s : ContractState) (r : Nat) (c : Cleartexts)
    (pv : Bool) (s' : ContractState) (n : Nat)
    (h : decryptVersionCount s r c pv = Except.ok (s', n)) :
    s' = s ∧ c = Cleartexts.u32 n ∧ pv = true ∧
    (findVersionByHash s.versionList (s.requestToPackageId r)).isSome = true := by
  simp only [decryptVersionCount] at h
  cases hf : findVersionByHash s.versionList (s.requestToPackageId r) with
  | none => rw [hf] at h; exact absurd h (by simp)
  | some v =>
    rw [hf] at h
    cases hpv : pv with
    | false => subst hpv; simp at h
    | true =>
      subst hpv
      cases c with
      | strings3 a w d => simp at h
      | u32 m =>
        simp only [Bool.true_eq_false, if_false, Except.ok.injEq, Prod.mk.injEq] at h
        exact ⟨h.1.symm, by rw [h.2], rfl, rfl⟩

/-- With an invalid proof, `decryptVersionCount` reverts no matter what. -/
theorem decryptVersionCount_badProof_error (s : ContractState) (r : Nat)
    (c : Cleartexts) : ∀ s' n, decryptVersionCount s r c false ≠ Except.ok (s', n) := by
  intro s' n h
  rcases decryptVersionCount_ok_elim s r c false s' n h with ⟨-, -, hpv, -⟩
  exact Bool.false_ne_true hpv

/-- With an invalid proof, a hash-resolvable `decryptVersionCount` reverts with
the proof failure. -/
theorem decryptVersionCount_badProof (s : ContractState) (r : Nat) (c : Cleartexts)
    (h : (findVersionByHash s.versionList (s.requestToPackageId r)).isSome = true) :
    decryptVersionCount s r c false = Except.error CallErr.invalidProof := by
  simp only [decryptVersionCount]
  cases hf : findVersionByHash s.versionList (s.requestToPackageId r) with
  | none => rw [hf] at h; simp at h
  | some v => simp

/-! ### Effect of a transaction on the individual storage slots -/

/-- Effect of one transaction on the aggregate counter of version `v`: it is
bumped (with lazy zero-initialization, wrapping modulo `2 ^ 32`) exactly by a
successful record reveal whose decrypted version is `v`, and untouched by
every other transaction. -/
theorem step_versionCount (s : ContractState) (op : Op) (v : String) :
    (step s op).encryptedVersionCount v =
      if revealsVersion v s op then
        some (((s.encryptedVersionCount v).getD 0 + 1) % 2 ^ 32)
      else s.encryptedVersionCount v := by
  cases op with
  | submit en ev ed now =>
    rw [show revealsVersion v s (Op.submit en ev ed now) = false from rfl]
    simp only [Bool.false_eq_true, if_false]
    simp only [step]
    cases hres : submitEncryptedPackage s en ev ed now with
    | error e => rfl
    | ok p =>
      obtain ⟨s', id⟩ := p
      obtain ⟨-, -, hs⟩ := submitEncryptedPackage_ok_elim s en ev ed now s' id hres
      subst hs
      rfl
  | requestPkg pid =>
    rw [show revealsVersion v s (Op.requestPkg pid) = false from rfl]
    simp only [Bool.false_eq_true, if_false]
    simp only [step]
    cases hres : requestPackageDecryption s pid with
    | error e => rfl
    | ok p =>
      obtain ⟨s', r⟩ := p
      obtain ⟨-, -, hs⟩ := requestPackageDecryption_ok_elim s pid s' r hres
      subst hs
      rfl
  | requestVer w =>
    rw [show revealsVersion v s (Op.requestVer w) = false from rfl]
    simp only [Bool.false_eq_true, if_false]
    simp only [step]
    cases hres : requestVersionCountDecryption s w with
    | error e => rfl
    | ok p =>
      obtain ⟨s', r⟩ := p
      obtain ⟨-, -, hs⟩ := requestVersionCountDecryption_ok_elim s w s' r hres
      subst hs
      rfl
  | decryptVer r c pv =>
    rw [show revealsVersion v s (Op.decryptVer r c pv) = false from rfl]
    simp only [Bool.false_eq_true, if_false]
    simp only [step]
    cases hres : decryptVersionCount s r c pv with
    | error e => rfl
    | ok p =>
      obtain ⟨s', n⟩ := p
      obtain ⟨hs, -, -, -⟩ := decryptVersionCount_ok_elim s r c pv s' n hres
      subst hs
      rfl
  | decryptPkg r c pv =>
    simp only [step]
    cases hres : decryptPackage s r c pv with
    | error e =>
      have hrv : revealsVersion v s (Op.decryptPkg r c pv) = false := by
        cases c <;> simp [revealsVersion, hres]
      rw [hrv]
      simp
    | ok s' =>
      obtain ⟨h0, h1, hpv, a, w, d, hc, hs⟩ := decryptPackage_ok_elim s r c pv s' hres
      subst hc
      subst hs
      have hrv : revealsVersion v s (Op.decryptPkg r (Cleartexts.strings3 a w d) pv)
          = (v == w) := by
        simp [revealsVersion, hres]
      rw [hrv]
      show (bumpVersionCount s.encryptedVersionCount s.versionList w).1 v = _
      rw [bumpVersionCount_fst_at]
      by_cases hvw : v = w
      · subst hvw
        simp
      · simp [hvw, beq_eq_false_iff_ne.mpr hvw]

/-- A transaction that does not successfully commit record `id` keeps that
record's decrypted slot at the all-empty unrevealed default. -/
theorem step_preserves_default (s : ContractState) (op : Op) (id : Nat)
    (hc : commitsPackage id s op = false)
    (hd : s.decryptedPackages id = emptyDecrypted) :
    (step s op).decryptedPackages id = emptyDecrypted := by
  cases op with
  | submit en ev ed now =>
    simp only [step]
    cases hres : submitEncryptedPackage s en ev ed now with
    | error e => exact hd
    | ok p =>
      obtain ⟨s', nid⟩ := p
      obtain ⟨-, -, hs⟩ := submitEncryptedPackage_ok_elim s en ev ed now s' nid hres
      subst hs
      show (if id = s.packageCount + 1 then emptyDecrypted else s.decryptedPackages id)
          = emptyDecrypted
      by_cases hi : id = s.packageCount + 1 <;> simp [hi, hd]
  | requestPkg pid =>
    simp only [step]
    cases hres : requestPackageDecryption s pid with
    | error e => exact hd
    | ok p =>
      obtain ⟨s', r⟩ := p
      obtain ⟨-, -, hs⟩ := requestPackageDecryption_ok_elim s pid s' r hres
      subst hs
      exact hd
  | requestVer w =>
    simp only [step]
    cases hres : requestVersionCountDecryption s w with
    | error e => exact hd
    | ok p =>
      obtain ⟨s', r⟩ := p
      obtain ⟨-, -, hs⟩ := requestVersionCountDecryption_ok_elim s w s' r hres
      subst hs
      exact hd
  | decryptVer r c pv =>
    simp only [step]
    cases hres : decryptVersionCount s r c pv with
    | error e => exact hd
    | ok p =>
      obtain ⟨s', n⟩ := p
      obtain ⟨hs, -, -, -⟩ := decryptVersionCount_ok_elim s r c pv s' n hres
      subst hs
      exact hd
  | decryptPkg r c pv =>
    simp only [step]
    cases hres : decryptPackage s r c pv with
    | error e => exact hd
    | ok s' =>
      obtain ⟨h0, h1, hpv, a, w, d, hcc, hs⟩ := decryptPackage_ok_elim s r c pv s' hres
      subst hs
      have hne : s.requestToPackageId r ≠ id := by
        intro heq
        rw [commitsPackage, heq, hres] at hc
        simp at hc
      show (if id = s.requestToPackageId r then _ else s.decryptedPackages id)
          = emptyDecrypted
      rw [if_neg (fun h => hne h.symm)]
      exact hd

/-- For a record id within the already-allocated id range, a set `isRevealed`
flag survives every transaction: `submitEncryptedPackage` writes only at the
fresh id `packageCount + 1`, and a successful `decryptPackage` writes `true`. -/
theorem step_preserves_revealed (s : ContractState) (op : Op) (id : Nat)
    (hid : id ≤ s.packageCount)
    (h : (s.decryptedPackages id).isRevealed = true) :
    ((step s op).decryptedPackages id).isRevealed = true := by
  cases op with
  | submit en ev ed now =>
    simp only [step]
    cases hres : submitEncryptedPackage s en ev ed now with
    | error e => exact h
    | ok p =>
      obtain ⟨s', nid⟩ := p
      obtain ⟨-, -, hs⟩ := submitEncryptedPackage_ok_elim s en ev ed now s' nid hres
      subst hs
      show (if id = s.packageCount + 1 then emptyDecrypted
            else s.decryptedPackages id).isRevealed = true
      rw [if_neg (by omega)]
      exact h
  | requestPkg pid =>
    simp only [step]
    cases hres : requestPackageDecryption s pid with
    | error e => exact h
    | ok p =>
      obtain ⟨s', r⟩ := p
      obtain ⟨-, -, hs⟩ := requestPackageDecryption_ok_elim s pid s' r hres
      subst hs
      exact h
  | requestVer w =>
    simp only [step]
    cases hres : requestVersionCountDecryption s w with
    | error e => exact h
    | ok p =>
      obtain ⟨s', r⟩ := p
      obtain ⟨-, -, hs⟩ := requestVersionCountDecryption_ok_elim s w s' r hres
      subst hs
      exact h
  | decryptVer r c pv =>
    simp only [step]
    cases hres : decryptVersionCount s r c pv with
    | error e => exact h
    | ok p =>
      obtain ⟨s', n⟩ := p
      obtain ⟨hs, -, -, -⟩ := decryptVersionCount_ok_elim s r c pv s' n hres
      subst hs
      exact h
  | decryptPkg r c pv =>
    simp only [step]
    cases hres : decryptPackage s r c pv with
    | error e => exact h
    | ok s' =>
      obtain ⟨h0, h1, hpv, a, w, d, hcc, hs⟩ := decryptPackage_ok_elim s r c pv s' hres
      subst hs
      show (if id = s.requestToPackageId r then DecryptedPackageData.mk a w d true
            else s.decryptedPackages id).isRevealed = true
      by_cases hi : id = s.requestToPackageId r <;> simp [hi, h]

/-- `packageCount` never decreases. -/
theorem step_packageCount_mono (s : ContractState) (op : Op) :
    s.packageCount ≤ (step s op).packageCount := by
  cases op with
  | submit en ev ed now =>
    simp only [step]
    cases hres : submitEncryptedPackage s en ev ed now with
    | error e => exact le_refl _
    | ok p =>
      obtain ⟨s', nid⟩ := p
      obtain ⟨-, -, hs⟩ := submitEncryptedPackage_ok_elim s en ev ed now s' nid hres
      subst hs
      exact Nat.le_succ _
  | requestPkg pid =>
    simp only [step]
    cases hres : requestPackageDecryption s pid with
    | error e => exact le_refl _
    | ok p =>
      obtain ⟨s', r⟩ := p
      obtain ⟨-, -, hs⟩ := requestPackageDecryption_ok_elim s pid s' r hres
      subst hs
      exact le_refl _
  | requestVer w =>
    simp only [step]
    cases hres : requestVersionCountDecryption s w with
    | error e => exact le_refl _
    | ok p =>
      obtain ⟨s', r⟩ := p
      obtain ⟨-, -, hs⟩ := requestVersionCountDecryption_ok_elim s w s' r hres
      subst hs
      exact le_refl _
  | decryptVer r c pv =>
    simp only [step]
    cases hres : decryptVersionCount s r c pv with
    | error e => exact le_refl _
    | ok p =>
      obtain ⟨s', n⟩ := p
      obtain ⟨hs, -, -, -⟩ := decryptVersionCount_ok_elim s r c pv s' n hres
      subst hs
      exact le_refl _
  | decryptPkg r c pv =>
    simp only [step]
    cases hres : decryptPackage s r c pv with
    | error e => exact le_refl _
    | ok s' =>
      obtain ⟨h0, h1, hpv, a, w, d, hcc, hs⟩ := decryptPackage_ok_elim s r c pv s' hres
      subst hs
      exact le_refl _

/-! ### Trace-level invariants -/

theorem execFrom_nil (s : ContractState) : execFrom s [] = s := rfl

theorem execFrom_cons (s : ContractState) (op : Op) (tr : List Op) :
    execFrom s (op :: tr) = execFrom (step s op) tr := rfl

theorem execFrom_append (s : ContractState) (t1 t2 : List Op) :
    execFrom s (t1 ++ t2) = execFrom (execFrom s t1) t2 := by
  simp [execFrom, List.foldl_append]

theorem countRevealsFrom_append (v : String) (s : ContractState) (t1 t2 : List Op) :
    countRevealsFrom v s (t1 ++ t2) =
      countRevealsFrom v s t1 + countRevealsFrom v (execFrom s t1) t2 := by
  induction t1 generalizing s with
  | nil => simp [countRevealsFrom, execFrom_nil]
  | cons op rest ih =>
    show (if revealsVersion v s op then 1 else 0)
        + countRevealsFrom v (step s op) (rest ++ t2) = _
    rw [ih (step s op)]
    simp only [countRevealsFrom, execFrom_cons]
    omega

/-- The running-counter invariant: starting from a state whose counter for `v`
records `n` prior observations (`none` when `n = 0`, else the encrypted value
`n % 2 ^ 32`), executing any transaction sequence leaves the counter recording
the prior observations plus the successful `v`-reveals of the sequence. -/
theorem counter_execFrom (v : String) :
    ∀ (tr : List Op) (s : ContractState) (n : Nat),
      s.encryptedVersionCount v = (if n = 0 then none else some (n % 2 ^ 32)) →
      (execFrom s tr).encryptedVersionCount v =
        (if n + countRevealsFrom v s tr = 0 then none
         else some ((n + countRevealsFrom v s tr) % 2 ^ 32)) := by
  intro tr
  induction tr with
  | nil =>
    intro s n hs
    simpa [execFrom_nil, countRevealsFrom] using hs
  | cons op rest ih =>
    intro s n hs
    rw [execFrom_cons]
    by_cases hb : revealsVersion v s op
    · have hstep : (step s op).encryptedVersionCount v = some ((n + 1) % 2 ^ 32) := by
        rw [step_versionCount s op v, if_pos hb, hs]
        by_cases hn : n = 0
        · subst hn; simp
        · rw [if_neg hn]
          congr 1
          simp only [Option.getD_some]
          omega
      have := ih (step s op) (n + 1) (by rw [hstep, if_neg (by omega)])
      rw [this]
      have hcnt : countRevealsFrom v s (op :: rest) =
          1 + countRevealsFrom v (step s op) rest := by
        simp [countRevealsFrom, hb]
      rw [hcnt]
      have harith : n + 1 + countRevealsFrom v (step s op) rest =
          n + (1 + countRevealsFrom v (step s op) rest) := by omega
      rw [harith]
    · have hstep : (step s op).encryptedVersionCount v =
          (if n = 0 then none else some (n % 2 ^ 32)) := by
        rw [step_versionCount s op v, if_neg hb, hs]
      have := ih (step s op) n hstep
      rw [this]
      have hcnt : countRevealsFrom v s (op :: rest) =
          countRevealsFrom v (step s op) rest := by
        simp [countRevealsFrom, hb]
      rw [hcnt]

/-- Specialization to runs from deployment: the counter of `v` holds exactly
the number of successful `v`-reveals, modulo `2 ^ 32`. -/
theorem counter_exec (v : String) (tr : List Op) :
    (execTrace tr).encryptedVersionCount v =
      (if countReveals v tr = 0 then none
       else some (countReveals v tr % 2 ^ 32)) := by
  have := counter_execFrom v tr initState 0 (by simp [initState])
  simpa [execTrace, countReveals] using this

/-- A record slot sitting at the default stays at the default along any
transaction sequence containing no successful commit of that record. -/
theorem decrypted_default_execFrom (id : Nat) :
    ∀ (tr : List Op) (s : ContractState),
      countCommitsFrom id s tr = 0 →
      s.decryptedPackages id = emptyDecrypted →
      (execFrom s tr).decryptedPackages id = emptyDecrypted := by
  intro tr
  induction tr with
  | nil => intro s _ hd; simpa [execFrom_nil] using hd
  | cons op rest ih =>
    intro s hc hd
    rw [execFrom_cons]
    have hcop : commitsPackage id s op = false := by
      by_cases h : commitsPackage id s op
      · rw [countCommitsFrom, if_pos h] at hc; omega
      · simpa using h
    have hrest : countCommitsFrom id (step s op) rest = 0 := by
      rw [countCommitsFrom, if_neg (by simp [hcop])] at hc
      omega
    exact ih (step s op) hrest (step_preserves_default s op id hcop hd)

/-- Request map entries strictly below the oracle's fresh-id watermark are
frozen: no transaction rewrites them (new entries are written only at the
fresh id, and `decryptPackage` never deletes its entry), and the watermark
never decreases. -/
theorem step_requestMap_frozen (s : ContractState) (op : Op) (r : Nat)
    (hr : r < s.nextRequestId) :
    (step s op).requestToPackageId r = s.requestToPackageId r ∧
    s.nextRequestId ≤ (step s op).nextRequestId := by
  cases op with
  | submit en ev ed now =>
    simp only [step]
    cases hres : submitEncryptedPackage s en ev ed now with
    | error e => exact ⟨rfl, le_refl _⟩
    | ok p =>
      obtain ⟨s', nid⟩ := p
      obtain ⟨-, -, hs⟩ := submitEncryptedPackage_ok_elim s en ev ed now s' nid hres
      subst hs
      exact ⟨rfl, le_refl _⟩
  | requestPkg pid =>
    simp only [step]
    cases hres : requestPackageDecryption s pid with
    | error e => exact ⟨rfl, le_refl _⟩
    | ok p =>
      obtain ⟨s', rq⟩ := p
      obtain ⟨-, -, hs⟩ := requestPackageDecryption_ok_elim s pid s' rq hres
      subst hs
      constructor
      · show (if r = s.nextRequestId then pid else s.requestToPackageId r)
            = s.requestToPackageId r
        rw [if_neg (by omega)]
      · show s.nextRequestId ≤ s.nextRequestId + 1
        omega
  | requestVer w =>
    simp only [step]
    cases hres : requestVersionCountDecryption s w with
    | error e => exact ⟨rfl, le_refl _⟩
    | ok p =>
      obtain ⟨s', rq⟩ := p
      obtain ⟨-, -, hs⟩ := requestVersionCountDecryption_ok_elim s w s' rq hres
      subst hs
      constructor
      · show (if r = s.nextRequestId then specHash w else s.requestToPackageId r)
            = s.requestToPackageId r
        rw [if_neg (by omega)]
      · show s.nextRequestId ≤ s.nextRequestId + 1
        omega
  | decryptPkg rq c pv =>
    simp only [step]
    cases hres : decryptPackage s rq c pv with
    | error e => exact ⟨rfl, le_refl _⟩
    | ok s' =>
      obtain ⟨h0, h1, hpv, a, w, d, hc, hs⟩ := decryptPackage_ok_elim s rq c pv s' hres
      subst hs
      exact ⟨rfl, le_refl _⟩
  | decryptVer rq c pv =>
    simp only [step]
    cases hres : decryptVersionCount s rq c pv with
    | error e => exact ⟨rfl, le_refl _⟩
    | ok p =>
      obtain ⟨s', n⟩ := p
      obtain ⟨hs, -, -, -⟩ := decryptVersionCount_ok_elim s rq c pv s' n hres
      subst hs
      exact ⟨rfl, le_refl _⟩

/-- A request map entry below the fresh-id watermark survives any transaction
sequence unchanged, and stays below the watermark. -/
theorem execFrom_requestMap_frozen (r : Nat) :
    ∀ (tr : List Op) (s : ContractState), r < s.nextRequestId →
      (execFrom s tr).requestToPackageId r = s.requestToPackageId r ∧
      r < (execFrom s tr).nextRequestId := by
  intro tr
  induction tr with
  | nil => intro s hr; exact ⟨rfl, hr⟩
  | cons op rest ih =>
    intro s hr
    obtain ⟨hmap, hnext⟩ := step_requestMap_frozen s op r hr
    obtain ⟨hmap', hnext'⟩ := ih (step s op) (by omega)
    rw [execFrom_cons]
    exact ⟨by rw [hmap', hmap], hnext'⟩

/-- For a record id inside the allocated range, a set `isRevealed` flag
survives any transaction sequence. -/
theorem execFrom_preserves_revealed (id : Nat) :
    ∀ (tr : List Op) (s : ContractState), id ≤ s.packageCount →
      (s.decryptedPackages id).isRevealed = true →
      ((execFrom s tr).decryptedPackages id).isRevealed = true := by
  intro tr
  induction tr with
  | nil => intro s _ h; exact h
  | cons op rest ih =>
    intro s hid h
    rw [execFrom_cons]
    exact ih (step s op) (le_trans hid (step_packageCount_mono s op))
      (step_preserves_revealed s op id hid h)

/-! ### Canonical traces for the concrete counterexamples -/

/-- One full reveal round for package `k` with version `"1.0"`: submit the
package (it receives id `k` when fired in sequence), request its decryption
(the oracle assigns request id `k`), then deliver the valid callback. -/
def canonBlock (k : Nat) : List Op :=
  [Op.submit 1 2 3 0, Op.requestPkg k, Op.decryptPkg k canonPayload true]

/-- `n` consecutive reveal rounds. -/
def canonTrace : Nat → List Op
  | 0 => []
  | n + 1 => canonTrace n ++ canonBlock (n + 1)

/-- `n` consecutive `submitEncryptedPackage` transactions from deployment. -/
def submitN : Nat → ContractState
  | 0 => initState
  | n + 1 => step (submitN n) (Op.submit 1 1 1 0)

theorem submitN_packageCount : ∀ n : Nat, n < 2 ^ 256 → (submitN n).packageCount = n := by
  intro n
  induction n with
  | zero => intro; rfl
  | succ m ih =>
    intro hm
    have hc : (submitN m).packageCount = m := ih (by omega)
    show (step (submitN m) (Op.submit 1 1 1 0)).packageCount = m + 1
    simp only [step]
    rw [submitEncryptedPackage_ok (submitN m) 1 1 1 0 (by omega)]
    simp [hc]

/-- The state reached by `n` canonical reveal rounds: `n` packages allocated,
`n` request ids consumed, every id beyond `n` still unrevealed, and exactly
`n` successful reveals of version `"1.0"` counted. -/
theorem canonTrace_invariant : ∀ n : Nat, n < 2 ^ 256 →
    (execTrace (canonTrace n)).packageCount = n ∧
    (execTrace (canonTrace n)).nextRequestId = n + 1 ∧
    (∀ j, n < j → ((execTrace (canonTrace n)).decryptedPackages j).isRevealed = false) ∧
    countReveals "1.0" (canonTrace n) = n := by
  intro n
  induction n with
  | zero =>
    intro
    refine ⟨rfl, rfl, fun j _ => rfl, rfl⟩
  | succ m ih =>
    intro hm
    obtain ⟨hpc, hreq, hunrev, hcount⟩ := ih (by omega)
    set s := execTrace (canonTrace m) with hs
    have hexec : execTrace (canonTrace (m + 1)) = execFrom s (canonBlock (m + 1)) := by
      rw [show canonTrace (m + 1) = canonTrace m ++ canonBlock (m + 1) from rfl]
      rw [execTrace, execFrom_append]
      rfl
    -- the submit step
    have hsub : submitEncryptedPackage s 1 2 3 0 =
        Except.ok ({ s with
          packageCount := s.packageCount + 1
          encryptedPackages := fun j =>
            if j = s.packageCount + 1 then ⟨s.packageCount + 1, 1, 2, 3, 0⟩
            else s.encryptedPackages j
          decryptedPackages := fun j =>
            if j = s.packageCount + 1 then emptyDecrypted else s.decryptedPackages j },
          s.packageCount + 1) :=
      submitEncryptedPackage_ok s 1 2 3 0 (by omega)
    set s1 : ContractState := { s with
      packageCount := s.packageCount + 1
      encryptedPackages := fun j =>
        if j = s.packageCount + 1 then ⟨s.packageCount + 1, 1, 2, 3, 0⟩
        else s.encryptedPackages j
      decryptedPackages := fun j =>
        if j = s.packageCount + 1 then emptyDecrypted else s.decryptedPackages j } with hs1
    have hstep1 : step s (Op.submit 1 2 3 0) = s1 := by
      simp only [step]
      rw [hsub]
    -- the request step
    have hs1unrev : (s1.decryptedPackages (m + 1)).isRevealed = false := by
      rw [hs1]
      show (if m + 1 = s.packageCount + 1 then emptyDecrypted
            else s.decryptedPackages (m + 1)).isRevealed = false
      rw [hpc]
      simp [emptyDecrypted]
    have hreq1 : requestPackageDecryption s1 (m + 1) =
        Except.ok ({ s1 with
          nextRequestId := s1.nextRequestId + 1
          requestToPackageId := fun j =>
            if j = s1.nextRequestId then m + 1 else s1.requestToPackageId j },
          s1.nextRequestId) :=
      requestPackageDecryption_ok s1 (m + 1) hs1unrev
    set s2 : ContractState := { s1 with
      nextRequestId := s1.nextRequestId + 1
      requestToPackageId := fun j =>
        if j = s1.nextRequestId then m + 1 else s1.requestToPackageId j } with hs2
    have hstep2 : step s1 (Op.requestPkg (m + 1)) = s2 := by
      simp only [step]
      rw [hreq1]
    -- the callback step
    have hs1req : s1.nextRequestId = m + 1 := by
      rw [hs1]
      exact hreq
    have hmap : s2.requestToPackageId (m + 1) = m + 1 := by
      rw [hs2, hs1req]
      simp
    have hs2unrev : (s2.decryptedPackages (s2.requestToPackageId (m + 1))).isRevealed
        = false := by
      rw [hmap]
      exact hs1unrev
    have hdec :=
      decryptPackage_ok_of s2 (m + 1) "pkg" "1.0" "demo" (by rw [hmap]; omega) hs2unrev
    set s3 : ContractState := { s2 with
      decryptedPackages := fun j =>
        if j = s2.requestToPackageId (m + 1) then ⟨"pkg", "1.0", "demo", true⟩
        else s2.decryptedPackages j
      encryptedVersionCount :=
        (bumpVersionCount s2.encryptedVersionCount s2.versionList "1.0").1
      versionList :=
        (bumpVersionCount s2.encryptedVersionCount s2.versionList "1.0").2 } with hs3
    have hstep3 : step s2 (Op.decryptPkg (m + 1) canonPayload true) = s3 := by
      simp only [step, canonPayload]
      rw [hdec]
    have hblock : execFrom s (canonBlock (m + 1)) = s3 := by
      show step (step (step s (Op.submit 1 2 3 0)) (Op.requestPkg (m + 1)))
          (Op.decryptPkg (m + 1) canonPayload true) = s3
      rw [hstep1, hstep2, hstep3]
    refine ⟨?_, ?_, ?_, ?_⟩
    · rw [hexec, hblock]
      show s.packageCount + 1 = m + 1
      omega
    · rw [hexec, hblock]
      show s1.nextRequestId + 1 = m + 1 + 1
      rw [hs1req]
    · intro j hj
      rw [hexec, hblock]
      show (if j = s2.requestToPackageId (m + 1)
            then DecryptedPackageData.mk "pkg" "1.0" "demo" true
            else s2.decryptedPackages j).isRevealed = false
      rw [hmap, if_neg (by omega)]
      show (if j = s.packageCount + 1 then emptyDecrypted
            else s.decryptedPackages j).isRevealed = false
      rw [hpc, if_neg (by omega)]
      exact hunrev j (by omega)
    · rw [show canonTrace (m + 1) = canonTrace m ++ canonBlock (m + 1) from rfl]
      rw [countReveals, countRevealsFrom_append]
      have hinit : execFrom initState (canonTrace m) = s := rfl
      have hpre : countRevealsFrom "1.0" initState (canonTrace m) = m := hcount
      rw [hinit, hpre]
      have h1 : revealsVersion "1.0" s (Op.submit 1 2 3 0) = false := rfl
      have h2 : revealsVersion "1.0" s1 (Op.requestPkg (m + 1)) = false := rfl
      have h3 : revealsVersion "1.0" s2 (Op.decryptPkg (m + 1) canonPayload true)
          = true := by
        simp only [canonPayload, revealsVersion]
        rw [hdec]
        simp
      have hb : countRevealsFrom "1.0" s (canonBlock (m + 1)) = 1 := by
        show (if revealsVersion "1.0" s (Op.submit 1 2 3 0) then 1 else 0)
            + ((if revealsVersion "1.0" (step s (Op.submit 1 2 3 0))
                  (Op.requestPkg (m + 1)) then 1 else 0)
              + ((if revealsVersion "1.0"
                    (step (step s (Op.submit 1 2 3 0)) (Op.requestPkg (m + 1)))
                    (Op.decryptPkg (m + 1) canonPayload true) then 1 else 0) + 0)) = 1
        rw [hstep1, hstep2, h1, h2, h3]
        simp
      rw [hb]

/-! ### Claim theorems -/

/-- C1 (counterexample) — the claim "after a first `onDecrypted` call for a
request id succeeds, every later `onDecrypted` call for the same id with any
payload and any proof fails with `AlreadySettled` or `UnknownRequest`" is
false for BOTH subject kinds. Counter-reveal callbacks (first three
conjuncts): in `demoState` (reached by an end-to-end run in which request id 2
is the pending `"1.0"` counter-reveal request), the first `decryptVersionCount`
callback for id 2 succeeds and returns the state unchanged, so the identical
replayed call (fired from the returned state, which is again `demoState`)
succeeds once more instead of failing — `decryptVersionCount` never consumes
its request id. Record-reveal callbacks (last two conjuncts): along
`resurrectTrace`, `decryptPackage` for request id 1 first succeeds (fourth
conjunct, fired right after `requestPackageDecryption(7)` mapped `1 ↦ 7`),
and after seven later submits re-allocate the never-submitted subject id 7
and reset its flag, `decryptPackage` for the SAME request id 1 succeeds a
second time (fifth conjunct) — the request entry is never deleted and the
proof check is stateless, so settle-once fails even on the record path. -/
theorem C1_counterexample :
    decryptVersionCount demoState 2 (Cleartexts.u32 1) true
        = Except.ok (demoState, 1) ∧
    decryptVersionCount demoState 2 (Cleartexts.u32 1) true
        ≠ Except.error CallErr.alreadyDecrypted ∧
    decryptVersionCount demoState 2 (Cleartexts.u32 1) true
        ≠ Except.error CallErr.invalidRequest ∧
    exceptOk (decryptPackage (execTrace [Op.requestPkg 7]) 1 canonPayload true) = true ∧
    exceptOk (decryptPackage (execTrace resurrectTrace) 1 canonPayload true) = true := by
  refine ⟨by rfl, ?_, ?_, by decide, by decide⟩ <;>
    rw [show decryptVersionCount demoState 2 (Cleartexts.u32 1) true
        = Except.ok (demoState, 1) from rfl] <;> simp

/-- C1 (amended) — what settle-once actually holds: (a) immediately after a
successful `decryptPackage` for a request id, a replayed `decryptPackage` for
that id (any payload, any proof) fails with `AlreadySettled` ("Already
decrypted") and, by revert semantics, changes no state; (b) this rejection is
permanent — it persists across EVERY later transaction sequence — provided
the request id lies below the oracle's fresh-id watermark (true of every id
the oracle actually issued) and the subject record was inside the allocated
id range when committed: then the undeleted request entry is frozen and the
subject's flag is one-way, so every later `decryptPackage` for that id still
fails with `AlreadySettled`. Without the allocated-subject proviso the
rejection is NOT permanent (see the counterexample's resurrection trace: a
subject revealed while never submitted can be re-allocated by a later submit,
resetting its flag, after which the same request id succeeds again).
(c) Counter-reveal callbacks are never consumed: a successful
`decryptVersionCount` leaves the state — including its own pending request
entry — unchanged, so an identical replay succeeds again (harmlessly, since
the call mutates nothing). -/
theorem C1_amended :
    (∀ (s : ContractState) (r : Nat) (c : Cleartexts) (pv : Bool)
        (s' : ContractState),
      decryptPackage s r c pv = Except.ok s' →
      (∀ (c2 : Cleartexts) (pv2 : Bool),
        decryptPackage s' r c2 pv2 = Except.error CallErr.alreadyDecrypted) ∧
      (r < s'.nextRequestId →
       s.requestToPackageId r ≤ s.packageCount →
       ∀ (tr : List Op) (c2 : Cleartexts) (pv2 : Bool),
         decryptPackage (execFrom s' tr) r c2 pv2
           = Except.error CallErr.alreadyDecrypted)) ∧
    (∀ (s : ContractState) (r : Nat) (c : Cleartexts) (pv : Bool)
        (s' : ContractState) (n : Nat),
      decryptVersionCount s r c pv = Except.ok (s', n) →
      s' = s ∧ decryptVersionCount s' r c pv = Except.ok (s', n)) := by
  constructor
  · intro s r c pv s' h
    obtain ⟨h0, h1, hpv, a, w, d, hc, hs⟩ := decryptPackage_ok_elim s r c pv s' h
    have hreq : s'.requestToPackageId r = s.requestToPackageId r := by rw [hs]
    have hrev : (s'.decryptedPackages (s.requestToPackageId r)).isRevealed = true := by
      rw [hs]
      show (if s.requestToPackageId r = s.requestToPackageId r
            then DecryptedPackageData.mk a w d true
            else s.decryptedPackages (s.requestToPackageId r)).isRevealed = true
      simp
    have hpc : s'.packageCount = s.packageCount := by rw [hs]
    constructor
    · intro c2 pv2
      exact decryptPackage_settled s' r c2 pv2 (by rw [hreq]; exact h0)
        (by rw [hreq]; exact hrev)
    · intro hfresh halloc tr c2 pv2
      obtain ⟨hmap, -⟩ := execFrom_requestMap_frozen r tr s' hfresh
      have hrev' : ((execFrom s' tr).decryptedPackages
          (s.requestToPackageId r)).isRevealed = true :=
        execFrom_preserves_revealed (s.requestToPackageId r) tr s' (by omega) hrev
      apply decryptPackage_settled
      · rw [hmap, hreq]
        exact h0
      · rw [hmap, hreq]
        exact hrev'
  · intro s r c pv s' n h
    obtain ⟨hs, hc, hpv, hf⟩ := decryptVersionCount_ok_elim s r c pv s' n h
    subst hs
    exact ⟨rfl, h⟩

/-- C1 (witness) — the record-reveal half of the amended claim at a concrete
input: in `demoPre` (one package submitted, request id 1 pending for it and
below the watermark, subject 1 allocated), the first `decryptPackage`
callback succeeds yielding `demoMid`; the immediately replayed callback on
`demoMid` fails with "Already decrypted", and so does the callback replayed
after a further submit transaction. -/
theorem C1_witness :
    decryptPackage demoPre 1 canonPayload true = Except.ok demoMid ∧
    (1 < demoMid.nextRequestId ∧ demoPre.requestToPackageId 1 ≤ demoPre.packageCount) ∧
    decryptPackage demoMid 1 canonPayload true
        = Except.error CallErr.alreadyDecrypted ∧
    decryptPackage (execFrom demoMid [Op.submit 5 5 5 5]) 1 canonPayload true
        = Except.error CallErr.alreadyDecrypted := by
  have h : decryptPackage demoPre 1 canonPayload true = Except.ok demoMid := by rfl
  refine ⟨h, ⟨by decide, by decide⟩, ?_, ?_⟩
  · exact (C1_amended.1 demoPre 1 canonPayload true demoMid h).1 canonPayload true
  · exact (C1_amended.1 demoPre 1 canonPayload true demoMid h).2 (by decide) (by decide)
      [Op.submit 5 5 5 5] canonPayload true

/-- C2 — proof-failure atomicity, confirmed. A callback delivered with an
invalid proof never reaches the `Except.ok` branch, so as a transaction it
leaves the contract storage untouched (first two conjuncts, for both callback
kinds and arbitrary payloads and states); and for a pending record request
(known nonzero request key, subject unrevealed) respectively a resolvable
counter request, the failure reported is precisely the proof failure, showing
the proof check sits after the request/settled guards and strictly before any
state mutation. -/
theorem C2_theorem :
    (∀ (s : ContractState) (r : Nat) (c : Cleartexts),
      step s (Op.decryptPkg r c false) = s) ∧
    (∀ (s : ContractState) (r : Nat) (c : Cleartexts),
      step s (Op.decryptVer r c false) = s) ∧
    (∀ (s : ContractState) (r : Nat) (c : Cleartexts),
      s.requestToPackageId r ≠ 0 →
      (s.decryptedPackages (s.requestToPackageId r)).isRevealed = false →
      decryptPackage s r c false = Except.error CallErr.invalidProof) ∧
    (∀ (s : ContractState) (r : Nat) (c : Cleartexts),
      (findVersionByHash s.versionList (s.requestToPackageId r)).isSome = true →
      decryptVersionCount s r c false = Except.error CallErr.invalidProof) := by
  refine ⟨?_, ?_, ?_, ?_⟩
  · intro s r c
    simp only [step]
    cases hres : decryptPackage s r c false with
    | error e => rfl
    | ok s' => exact absurd hres (decryptPackage_badProof_error s r c s')
  · intro s r c
    simp only [step]
    cases hres : decryptVersionCount s r c false with
    | error e => rfl
    | ok p =>
      obtain ⟨s', n⟩ := p
      exact absurd hres (decryptVersionCount_badProof_error s r c s' n)
  · intro s r c h0 h1
    exact decryptPackage_badProof s r c h0 h1
  · intro s r c h
    exact decryptVersionCount_badProof s r c h

/-- C2 (witness) — the pending-record conjunct at a concrete input: in
`demoPre`, request id 1 is pending for the unrevealed package 1, and the
callback with an invalid proof fails with exactly the proof failure. -/
theorem C2_witness :
    (demoPre.requestToPackageId 1 ≠ 0 ∧
     (demoPre.decryptedPackages (demoPre.requestToPackageId 1)).isRevealed = false) ∧
    decryptPackage demoPre 1 (Cleartexts.strings3 "x" "y" "z") false
        = Except.error CallErr.invalidProof :=
  ⟨⟨by decide, by decide⟩,
    C2_theorem.2.2.1 demoPre 1 (Cleartexts.strings3 "x" "y" "z")
      (by decide) (by decide)⟩

/-- C3 (counterexample) — the claim "no request is ever created for a record
id that was never submitted" is false: from the deployment state, in which no
package was ever submitted (`packageCount = 0`), `requestPackageDecryption 7`
succeeds and registers the live pending request `1 ↦ 7` (and consumes oracle
request id 1), because the function checks only the `isRevealed` flag — whose
mapping default is `false` — and never checks existence. -/
theorem C3_counterexample :
    initState.packageCount = 0 ∧
    (step initState (Op.requestPkg 7)).requestToPackageId 1 = 7 ∧
    (step initState (Op.requestPkg 7)).nextRequestId = 2 := by
  refine ⟨rfl, by decide, by decide⟩

/-- C3 (amended) — what the request functions actually guarantee at request
time: a successful `requestPackageDecryption` implies only that the subject
record is not already revealed (there is no existence check, so the subject
may be an id that was never submitted), while a successful
`requestVersionCountDecryption` does imply its subject counter is a live,
initialized aggregate. -/
theorem C3_amended :
    (∀ (s : ContractState) (id : Nat) (s' : ContractState) (r : Nat),
      requestPackageDecryption s id = Except.ok (s', r) →
      (s.decryptedPackages id).isRevealed = false) ∧
    (∀ (s : ContractState) (v : String) (s' : ContractState) (r : Nat),
      requestVersionCountDecryption s v = Except.ok (s', r) →
      fheIsInitialized (s.encryptedVersionCount v) = true) := by
  constructor
  · intro s id s' r h
    exact (requestPackageDecryption_ok_elim s id s' r h).1
  · intro s v s' r h
    exact (requestVersionCountDecryption_ok_elim s v s' r h).1

/-- C3 (witness) — both amended conjuncts at concrete inputs: the successful
request in `demoTrace` implies package 1 was unrevealed in the post-submit
state, and the successful counter-reveal request implies the `"1.0"` counter
was initialized in `demoMid`. -/
theorem C3_witness :
    ((execTrace [Op.submit 10 20 30 0]).decryptedPackages 1).isRevealed = false ∧
    fheIsInitialized (demoMid.encryptedVersionCount "1.0") = true :=
  ⟨C3_amended.1 (execTrace [Op.submit 10 20 30 0]) 1 demoPre 1 (by rfl),
   C3_amended.2 demoMid "1.0" demoState 2 (by rfl)⟩

/-- C4 (counterexample) — the claim "requesting reveal twice for the same
still-unrevealed record fails with `AlreadyRevealed` on the second call and
does not create a second pending request" is false: after submitting package 1
and requesting its reveal once, a second `requestPackageDecryption 1` succeeds
(third conjunct) and afterwards BOTH request ids 1 and 2 map to package 1 —
two live pending requests for the same record. The guard fires only once the
record is actually revealed; pending-ness is not tracked. -/
theorem C4_counterexample :
    (execTrace [Op.submit 1 2 3 0, Op.requestPkg 1, Op.requestPkg 1]).requestToPackageId 1
        = 1 ∧
    (execTrace [Op.submit 1 2 3 0, Op.requestPkg 1, Op.requestPkg 1]).requestToPackageId 2
        = 1 ∧
    exceptOk (requestPackageDecryption
        (execTrace [Op.submit 1 2 3 0, Op.requestPkg 1]) 1) = true := by
  refine ⟨by decide, by decide, by decide⟩

/-- C4 (amended) — `requestPackageDecryption` is guarded only by the
`isRevealed` flag: while the record is unrevealed EVERY call succeeds, each
registering a fresh pending request for the same record under a new request
id; the call fails with `AlreadyRevealed` ("Already decrypted") precisely when
the record is already revealed. -/
theorem C4_amended :
    (∀ (s : ContractState) (id : Nat),
      (s.decryptedPackages id).isRevealed = false →
      requestPackageDecryption s id =
        Except.ok ({ s with
          nextRequestId := s.nextRequestId + 1
          requestToPackageId := fun j =>
            if j = s.nextRequestId then id else s.requestToPackageId j },
          s.nextRequestId)) ∧
    (∀ (s : ContractState) (id : Nat),
      (s.decryptedPackages id).isRevealed = true →
      requestPackageDecryption s id = Except.error CallErr.alreadyDecrypted) := by
  constructor
  · intro s id h
    exact requestPackageDecryption_ok s id h
  · intro s id h
    exact requestPackageDecryption_revealed s id h

/-- C4 (witness) — both amended conjuncts at concrete inputs: requesting the
unrevealed package 1 right after submission succeeds with request id 1, and
requesting package 1 in `demoState` (where it is revealed) fails with
"Already decrypted". -/
theorem C4_witness :
    (((execTrace [Op.submit 10 20 30 0]).decryptedPackages 1).isRevealed = false ∧
      exceptOk (requestPackageDecryption (execTrace [Op.submit 10 20 30 0]) 1) = true) ∧
    ((demoState.decryptedPackages 1).isRevealed = true ∧
      requestPackageDecryption demoState 1 = Except.error CallErr.alreadyDecrypted) := by
  refine ⟨⟨by decide, ?_⟩, by decide, C4_amended.2 demoState 1 (by decide)⟩
  rw [C4_amended.1 (execTrace [Op.submit 10 20 30 0]) 1 (by decide)]
  rfl

/-- C5 — the counter-reveal callback never stores or emits the decrypted
count: every successful `decryptVersionCount` returns the input state
unchanged. The source decodes the cleartext into the local variable
`uint32 count` and then simply drops it — there is no storage write and no
event, contradicting the claimed "store/emit the decrypted integer" (the
"no further mutation" half of the claim does hold, vacuously strongly). -/
theorem C5_theorem :
    ∀ (s : ContractState) (r : Nat) (c : Cleartexts) (pv : Bool)
      (s' : ContractState) (n : Nat),
      decryptVersionCount s r c pv = Except.ok (s', n) → s' = s := by
  intro s r c pv s' n h
  exact (decryptVersionCount_ok_elim s r c pv s' n h).1

/-- C5 (witness) — at the concrete end-to-end state `demoState`: the
successful counter-reveal callback for the pending request id 2 decodes count
7 yet hands back `demoState` itself, bit-for-bit. -/
theorem C5_witness :
    decryptVersionCount demoState 2 (Cleartexts.u32 7) true
        = Except.ok (demoState, 7) ∧
    demoState = demoState := by
  have h : decryptVersionCount demoState 2 (Cleartexts.u32 7) true
      = Except.ok (demoState, 7) := by rfl
  exact ⟨h, C5_theorem demoState 2 (Cleartexts.u32 7) true demoState 7 h⟩

/-- C6 (counterexample) — the claim "after exactly N successful record reveals
whose decrypted version equals v, the aggregate counter for v holds encrypted
N, for EVERY natural number N" is false at `N = 2 ^ 32`: the counter is an
`euint32` and `FHE.add` wraps, so the canonical trace performing `2 ^ 32`
successful reveals of version `"1.0"` (each round submits a fresh package,
requests its decryption and delivers a valid callback) leaves the counter
holding encrypted `0`, not `2 ^ 32`. -/
theorem C6_counterexample :
    countReveals "1.0" (canonTrace (2 ^ 32)) = 2 ^ 32 ∧
    (execTrace (canonTrace (2 ^ 32))).encryptedVersionCount "1.0" = some 0 ∧
    (0 : Nat) ≠ 2 ^ 32 := by
  have hlt : (2 : Nat) ^ 32 < 2 ^ 256 := by norm_num
  obtain ⟨-, -, -, hcount⟩ := canonTrace_invariant (2 ^ 32) hlt
  refine ⟨hcount, ?_, by norm_num⟩
  rw [counter_exec "1.0" (canonTrace (2 ^ 32)), hcount]
  norm_num

/-- C6 (amended) — aggregate count correctness modulo the 32-bit width: along
EVERY transaction sequence from deployment, the aggregate counter for an
attribute value `v` is `none` (never initialized) while no successful reveal
decrypted version `v`, and afterwards holds exactly the number of successful
`v`-reveals reduced modulo `2 ^ 32` — i.e. it is lazily initialized to zero on
the first observation and incremented by one (wrapping) on each observation,
so it equals `N` whenever `N < 2 ^ 32`. -/
theorem C6_amended (v : String) (tr : List Op) :
    (execTrace tr).encryptedVersionCount v =
      (if countReveals v tr = 0 then none
       else some (countReveals v tr % 2 ^ 32)) :=
  counter_exec v tr

/-- C7 (counterexample) — the claim "no operation ever sets the revealed flag
from true back to false" is false: because `requestPackageDecryption` lacks an
existence check, the never-submitted id 1 can be put under a pending request
and revealed through a valid callback (first conjunct: its flag is then true);
the next `submitEncryptedPackage` allocates id 1 and re-initializes its
decrypted slot, resetting the flag to false (second conjunct) — a true→false
transition. -/
theorem C7_counterexample :
    ((execTrace [Op.requestPkg 1, Op.decryptPkg 1 canonPayload true]).decryptedPackages
        1).isRevealed = true ∧
    ((execTrace [Op.requestPkg 1, Op.decryptPkg 1 canonPayload true,
        Op.submit 1 2 3 0]).decryptedPackages 1).isRevealed = false := by
  refine ⟨by decide, by decide⟩

/-- C7 (amended) — the one-way reveal flag holds for ids inside the allocated
range: (1) for any id with `id ≤ packageCount`, a set `isRevealed` flag
survives every transaction (`submitEncryptedPackage` writes only at the fresh
id `packageCount + 1`, which lies outside the range, and `decryptPackage`
only ever writes `true`); (2) a successful `decryptPackage` flips its
subject's flag from exactly `false` to `true`; (3) `packageCount` never
decreases, so an allocated id stays allocated. Only a record revealed while
never submitted — the hole exhibited by the counterexample — escapes this,
via the later `submitEncryptedPackage` that re-allocates its id. -/
theorem C7_amended :
    (∀ (s : ContractState) (op : Op) (id : Nat),
      id ≤ s.packageCount →
      (s.decryptedPackages id).isRevealed = true →
      ((step s op).decryptedPackages id).isRevealed = true) ∧
    (∀ (s : ContractState) (r : Nat) (c : Cleartexts) (pv : Bool)
        (s' : ContractState),
      decryptPackage s r c pv = Except.ok s' →
      (s.decryptedPackages (s.requestToPackageId r)).isRevealed = false ∧
      (s'.decryptedPackages (s.requestToPackageId r)).isRevealed = true) ∧
    (∀ (s : ContractState) (op : Op), s.packageCount ≤ (step s op).packageCount) := by
  refine ⟨?_, ?_, ?_⟩
  · intro s op id hid h
    exact step_preserves_revealed s op id hid h
  · intro s r c pv s' h
    obtain ⟨h0, h1, hpv, a, w, d, hc, hs⟩ := decryptPackage_ok_elim s r c pv s' h
    refine ⟨h1, ?_⟩
    rw [hs]
    show (if s.requestToPackageId r = s.requestToPackageId r
          then DecryptedPackageData.mk a w d true
          else s.decryptedPackages (s.requestToPackageId r)).isRevealed = true
    simp
  · intro s op
    exact step_packageCount_mono s op

/-- C7 (witness) — the flag-persistence conjunct at a concrete input: package
1 is allocated and revealed in `demoState`, and it stays revealed across a
further `submitEncryptedPackage` transaction. -/
theorem C7_witness :
    (1 ≤ demoState.packageCount ∧
      (demoState.decryptedPackages 1).isRevealed = true) ∧
    ((step demoState (Op.submit 9 9 9 9)).decryptedPackages 1).isRevealed = true :=
  ⟨⟨by decide, by decide⟩,
    C7_amended.1 demoState (Op.submit 9 9 9 9) 1 (by decide) (by decide)⟩

/-- C8 — read-before-reveal and id allocation, confirmed. (1) Deployment
starts with `packageCount = 0`; (2) every successful submit allocates exactly
the next sequential id `packageCount + 1` (so ids run 1, 2, 3, …) and the
freshly initialized record reads back all-empty and unrevealed; (3) the id 0
is the sentinel: a callback whose request id maps to 0 (the mapping default
for unknown request ids) fails with "Invalid request"; (4) along every
transaction sequence from deployment, as long as no successful
`decryptPackage` has committed a given submitted record, `getDecryptedPackage`
returns `revealed = false` with all three string fields empty. -/
theorem C8_theorem :
    initState.packageCount = 0 ∧
    (∀ (s : ContractState) (en ev ed now : Nat) (s' : ContractState) (id : Nat),
      submitEncryptedPackage s en ev ed now = Except.ok (s', id) →
      id = s.packageCount + 1 ∧ s'.packageCount = id ∧
      getDecryptedPackage s' id = ("", "", "", false)) ∧
    (∀ (s : ContractState) (r : Nat) (c : Cleartexts) (pv : Bool),
      s.requestToPackageId r = 0 →
      decryptPackage s r c pv = Except.error CallErr.invalidRequest) ∧
    (∀ (tr : List Op) (id : Nat),
      1 ≤ id → id ≤ (execTrace tr).packageCount →
      countCommits id tr = 0 →
      getDecryptedPackage (execTrace tr) id = ("", "", "", false)) := by
  refine ⟨rfl, ?_, ?_, ?_⟩
  · intro s en ev ed now s' id h
    obtain ⟨hb, hid, hs⟩ := submitEncryptedPackage_ok_elim s en ev ed now s' id h
    subst hid
    refine ⟨rfl, by rw [hs], ?_⟩
    rw [hs]
    show ((if s.packageCount + 1 = s.packageCount + 1 then emptyDecrypted
          else s.decryptedPackages (s.packageCount + 1)).name, _, _, _) = _
    simp [emptyDecrypted]
  · intro s r c pv h
    exact decryptPackage_unknown s r c pv h
  · intro tr id _ _ hc
    have hdef : (execTrace tr).decryptedPackages id = emptyDecrypted :=
      decrypted_default_execFrom id tr initState hc rfl
    rw [getDecryptedPackage, hdef]
    rfl

/-- C8 (witness) — the trace conjunct at a concrete input: after submitting
one package (id 1) and leaving it uncommitted, reading record 1 yields the
all-empty unrevealed tuple. -/
theorem C8_witness :
    (1 ≤ (execTrace [Op.submit 1 2 3 0]).packageCount ∧
      countCommits 1 [Op.submit 1 2 3 0] = 0) ∧
    getDecryptedPackage (execTrace [Op.submit 1 2 3 0]) 1 = ("", "", "", false) :=
  ⟨⟨by decide, by decide⟩,
    C8_theorem.2.2.2 [Op.submit 1 2 3 0] 1 (by decide) (by decide) (by decide)⟩

/-- C9 — the record-id and attribute-hash keyspaces are NOT distinguishable or
disjoint: `requestToPackageId` is a single untagged uint256 mapping holding
raw record ids (assigned sequentially over the whole uint256 range) alongside
raw hash-derived keys. Concretely: in `demoState` the counter-reveal request 2
stores the bare derived key of `"1.0"` (first conjunct); that key is a
positive number below `2 ^ 256` (second and third conjuncts); and after that
many `submitEncryptedPackage` transactions, `packageCount` reaches exactly
this value (fourth conjunct), making the derived key of `"1.0"` a valid,
allocated record id — at which point `decryptPackage` would resolve the
counter request as that record. The argument is independent of the concrete
hash: any deterministic function into the uint256 value range collides with
the unbounded sequential id range in this way. -/
theorem C9_theorem :
    demoState.requestToPackageId 2 = specHash "1.0" ∧
    1 ≤ specHash "1.0" ∧
    specHash "1.0" < 2 ^ 256 ∧
    (submitN (specHash "1.0")).packageCount = specHash "1.0" := by
  refine ⟨by decide, by decide, by decide, ?_⟩
  exact submitN_packageCount (specHash "1.0") (by decide)

/-- C10 — reading an unknown counter does not fail, confirmed:
`getEncryptedVersionCount` is a total pure mapping read (first conjunct — it
returns exactly the stored handle, with no error path), and for an attribute
value never observed in any successful reveal along any transaction sequence
from deployment it returns the uninitialized default handle (second
conjunct), so callers must test initialization themselves. -/
theorem C10_theorem :
    (∀ (s : ContractState) (v : String),
      getEncryptedVersionCount s v = s.encryptedVersionCount v) ∧
    (∀ (tr : List Op) (v : String),
      countReveals v tr = 0 →
      getEncryptedVersionCount (execTrace tr) v = none) := by
  constructor
  · intro s v
    rfl
  · intro tr v h
    rw [getEncryptedVersionCount, counter_exec v tr, h]
    simp

/-- C10 (witness) — the unobserved-value conjunct at a concrete input: the
end-to-end `demoTrace` never reveals version `"2.0"`, and reading its counter
returns the uninitialized default handle without error. -/
theorem C10_witness :
    countReveals "2.0" demoTrace = 0 ∧
    getEncryptedVersionCount (execTrace demoTrace) "2.0" = none :=
  ⟨by decide, C10_theorem.2 demoTrace "2.0" (by decide)⟩
